import Mathlib

/-!
Shallow embedding of the `remix-utils` sources: the theme subsystem
(`src/theme/index.tsx`) and the three request helpers (`mergeHeaders`,
`getFromEnv`, `withLocale`).

JavaScript values that can appear in a parsed JSON request body or in a
session slot are modelled by `JsVal`; JavaScript truthiness and property
access (which throws a `TypeError` on `null`/`undefined`) are modelled
explicitly, as the set-theme action relies on both.
-/

/-- JavaScript runtime values relevant to the embedded code: every JSON
parse result, plus `undefined`, which arises from property access and
from `session.get` on a missing key. -/
inductive JsVal where
  | null
  | undefined
  | bool (b : Bool)
  | num (n : Int)
  | str (s : String)
  | obj (fields : List (String × JsVal))
  | arr (elems : List JsVal)

/-- JavaScript truthiness of a `JsVal` (`!x` in the source negates this). -/
def JsVal.truthy : JsVal → Bool
  | .null => false
  | .undefined => false
  | .bool b => b
  | .num n => n != 0
  | .str s => s != ""
  | .obj _ => true
  | .arr _ => true

/-- Exceptions the embedded code can raise: `TypeError` from a property
access on `null`/`undefined`, `SyntaxError` from `request.json()` on an
absent or malformed body. -/
inductive JsError where
  | typeError
  | syntaxError
deriving DecidableEq

/-- JavaScript property read `x[k]`: throws `TypeError` on `null` and
`undefined`, yields the field of an object (or `undefined` when absent),
and `undefined` on other (boxed-primitive) values. -/
def JsVal.getProp : JsVal → String → Except JsError JsVal
  | .null, _ => .error .typeError
  | .undefined, _ => .error .typeError
  | .obj fields, k => .ok ((fields.lookup k).getD .undefined)
  | _, _ => .ok .undefined

/-- Source: `const themes = Object.values(Theme)` — the enum values, in
declaration order. -/
def themes : List String := ["dark", "light"]

/-- Source: `isTheme = (theme) => typeof theme === 'string' && themes.includes(theme)`. -/
def isTheme (theme : JsVal) : Bool :=
  match theme with
  | .str s => themes.contains s
  | _ => false

/-- The cookie session: a key/value record (remix sessions behave as a
map; `get` on a missing key yields `undefined`). -/
abbrev Session := List (String × JsVal)

/-- Session read `session.get(key)`. -/
def sessionGet (session : Session) (key : String) : JsVal :=
  (session.lookup key).getD .undefined

/-- Session write `session.set(key, value)`: replaces any existing binding of `key`. -/
def sessionSet (session : Session) (key : String) (value : JsVal) : Session :=
  (key, value) :: session.filter (fun p => p.1 != key)

/-- Embeds `getTheme` from `getThemeSession`:
`const theme = session.get('theme'); return isTheme(theme) ? theme : null`. -/
def getTheme (session : Session) : JsVal :=
  let theme := sessionGet session "theme"
  if isTheme theme then theme else .null

/-- The action's response: a redirect to `url`, optionally carrying a
`Set-Cookie` header that commits the given session. -/
structure ActionRedirect where
  url : String
  setCookie : Option Session

/-- The cookie state that persists after the response: the committed
session when a `Set-Cookie` header was attached, the original one
otherwise. -/
def storedAfter (session : Session) (r : ActionRedirect) : Session :=
  match r.setCookie with
  | none => session
  | some s => s

/-- Embeds `setThemeAction`. Here `pathname` is `new URL(request.url).pathname`;
`body` is the JSON parse of the request body (`none` when the body is
absent or malformed, in which case `await request.json()` throws a
`SyntaxError`); `session` is the session `getSession` builds from the
request cookie. The guard is the source's `!(data || data.theme)`:
`data || data.theme` evaluates `data.theme` only when `data` is falsy,
which throws a `TypeError` for `data === null`. -/
def setThemeAction (pathname : String) (body : Option JsVal) (session : Session) :
    Except JsError ActionRedirect :=
  match body with
  | none => .error .syntaxError
  | some data =>
    match (if data.truthy then Except.ok data else data.getProp "theme") with
    | .error e => .error e
    | .ok cond =>
      if !cond.truthy then .ok ⟨pathname, none⟩
      else
        match data.getProp "theme" with
        | .error e => .error e
        | .ok theme =>
          if !isTheme theme then .ok ⟨pathname, none⟩
          else .ok ⟨pathname, some (sessionSet session "theme" theme)⟩

/-! Request helpers (`src/unnamed/part_000`). -/

/-- The three shapes `mergeHeaders` accepts: a `Headers` instance, an
array of name/value pairs, and a plain key/value object. -/
inductive HeadersShape where
  | headersObj (entries : List (String × String))
  | pairs (entries : List (String × String))
  | record (fields : List (String × String))

/-- JavaScript `object[key] = value` on a plain object: overwrites the
existing binding in place, or adds the key at the end. -/
def recordSet (fields : List (String × String)) (key value : String) :
    List (String × String) :=
  if fields.any (fun p => p.1 == key) then
    fields.map (fun p => if p.1 = key then (key, value) else p)
  else fields ++ [(key, value)]

/-- The content update `mergeHeaders` performs for a non-empty value:
`Headers.append` and `Array.push` append an entry, plain-object
assignment overwrites. -/
def mergeContent (headers : HeadersShape) (value : String) : HeadersShape :=
  match headers with
  | .headersObj entries => .headersObj (entries ++ [("Set-Cookie", value)])
  | .pairs entries => .pairs (entries ++ [("Set-Cookie", value)])
  | .record fields => .record (recordSet fields "Set-Cookie" value)

/-- Object identity: header containers live in a heap addressed by `Nat`,
so that "mutates in place and returns the same reference" is statable. -/
abbrev Addr := Nat

/-- The heap of header containers. -/
abbrev Heap := Addr → HeadersShape

/-- Embeds `mergeHeaders(headers, value)`: `if (!value) return headers` (both
`null` and the empty string are falsy); otherwise mutate the container
in place and return the same reference. -/
def mergeHeaders (a : Addr) (heap : Heap) (value : Option String) : Addr × Heap :=
  match value with
  | none => (a, heap)
  | some v =>
    if v = "" then (a, heap)
    else (a, fun b => if b = a then mergeContent (heap b) v else heap b)

/-- Embeds `getFromEnv(key, object)`: `object[key]`, throwing
`` `${key} should be in environment` `` when the value is absent or
empty (falsy). -/
def getFromEnv (key : String) (object : List (String × String)) :
    Except String String :=
  match object.lookup key with
  | none => .error (key ++ " should be in environment")
  | some value =>
    if value = "" then .error (key ++ " should be in environment")
    else .ok value

/-- Embeds `String.prototype.split(/[,;]/)` on the character list: splits at
every `,` or `;`, keeping empty segments. -/
def splitSegsGo : List Char → List Char → List String
  | [], acc => [String.mk acc.reverse]
  | c :: cs, acc =>
    if c = ',' ∨ c = ';' then String.mk acc.reverse :: splitSegsGo cs []
    else splitSegsGo cs (c :: acc)

/-- Embeds `acceptedLanguages.split(/[,;]/)`. -/
def splitSegs (s : String) : List String :=
  splitSegsGo s.toList []

/-- Embeds `String.prototype.startsWith`: the argument's characters lead the
receiver's. -/
def jsStartsWith (s p : String) : Bool :=
  List.isPrefixOf p.toList s.toList

/-- Embeds `withLocale`: here `acceptedLanguages` is `request.headers.get('accepted-language')`
(`none` when the header is absent). `!acceptedLanguages` is true for
`null` and for the empty string. -/
def withLocale (acceptedLanguages : Option String) : List String :=
  match acceptedLanguages with
  | none => ["en-US"]
  | some s =>
    if s = "" then ["en-US"]
    else (splitSegs s).filter (fun str => !jsStartsWith str "q")

/-! Theme enum and the `SSRTheme` component. -/

/-- Source: the `Theme` enum, whose members DARK and LIGHT carry the
string values `dark` and `light`. -/
inductive Theme where
  | dark
  | light
deriving DecidableEq

/-- What `SSRTheme` renders: the `color-scheme` meta tag content (always
emitted) and whether the inline flash-avoidance script is emitted. -/
structure SSRThemeOutput where
  metaContent : String
  scriptEmitted : Bool

/-- Embeds `SSRTheme`: here `theme` is the context value from `useTheme()`,
`ssrTheme` the prop. The meta content is
`!theme || theme === Theme.DARK ? 'dark light' : 'light dark'` and the
script is rendered under `!ssrTheme && ...`. -/
def SSRTheme (ssrTheme : Option Theme) (theme : Option Theme) : SSRThemeOutput :=
  { metaContent :=
      if theme = none ∨ theme = some Theme.dark then "dark light" else "light dark"
    scriptEmitted := ssrTheme.isNone }

/-- Predicate: `getFromEnv` threw: the call ended in the configuration error. -/
def getFromEnvThrew (r : Except String String) : Bool :=
  match r with
  | .error _ => true
  | .ok _ => false

/-! ### Helper lemmas (shared across the theorems below) -/

theorem isTheme_true_iff (v : JsVal) :
    isTheme v = true ↔ v = .str "dark" ∨ v = .str "light" := by
  cases v <;> simp [isTheme, themes]

theorem isTheme_mem (t : String) (ht : t ∈ themes) : isTheme (.str t) = true := by
  simp [themes] at ht
  rcases ht with h | h <;> subst h <;> rfl

theorem lookup_map_overwrite (fs : List (String × String)) (k v : String)
    (h : fs.any (fun p => p.1 == k) = true) :
    (fs.map (fun p => if p.1 = k then (k, v) else p)).lookup k = some v := by
  induction fs with
  | nil => simp at h
  | cons hd tl ih =>
    obtain ⟨a, b⟩ := hd
    by_cases hk : a = k
    · simp [hk]
    · have hb : (k == a) = false := by simp [Ne.symm hk]
      have htl : tl.any (fun p => p.1 == k) = true := by
        have hk2 : (a == k) = false := by simp [hk]
        simpa [List.any_cons, hk2] using h
      simp [hk, List.lookup_cons, hb, ih htl]

theorem lookup_absent (fs : List (String × String)) (k : String)
    (h : fs.any (fun p => p.1 == k) = false) :
    fs.lookup k = none := by
  rw [List.lookup_eq_none_iff]
  intro p hp
  have hb : (p.1 == k) = false := by
    by_contra hc
    simp only [Bool.not_eq_false] at hc
    have : fs.any (fun p => p.1 == k) = true := List.any_eq_true.mpr ⟨p, hp, hc⟩
    simp [this] at h
  have : ¬ p.1 = k := by simpa using hb
  simpa using Ne.symm this

theorem recordSet_lookup (fs : List (String × String)) (k v : String) :
    (recordSet fs k v).lookup k = some v := by
  unfold recordSet
  by_cases h : fs.any (fun p => p.1 == k) = true
  · rw [if_pos h]
    exact lookup_map_overwrite fs k v h
  · rw [if_neg h]
    rw [List.lookup_append, lookup_absent fs k (Bool.eq_false_iff.mpr h)]
    simp

theorem filter_map_overwrite (fs : List (String × String)) (k v : String) :
    (fs.map (fun p => if p.1 = k then (k, v) else p)).filter (fun p => p.1 != k)
      = fs.filter (fun p => p.1 != k) := by
  induction fs with
  | nil => rfl
  | cons hd tl ih =>
    by_cases hk : hd.1 = k
    · simp [List.filter_cons, hk, ih]
    · simp [List.filter_cons, hk, ih]

theorem countP_map_overwrite (fs : List (String × String)) (k v : String) :
    (fs.map (fun p => if p.1 = k then (k, v) else p)).countP (fun p => p.1 == k)
      = fs.countP (fun p => p.1 == k) := by
  induction fs with
  | nil => rfl
  | cons hd tl ih =>
    by_cases hk : hd.1 = k
    · simp [List.countP_cons, hk, ih]
    · simp [List.countP_cons, hk, ih]

theorem recordSet_filter_ne (fs : List (String × String)) (k v : String) :
    (recordSet fs k v).filter (fun p => p.1 != k)
      = fs.filter (fun p => p.1 != k) := by
  unfold recordSet
  by_cases h : fs.any (fun p => p.1 == k) = true
  · rw [if_pos h]
    exact filter_map_overwrite fs k v
  · rw [if_neg h]
    simp [List.filter_append, List.filter_cons]

theorem recordSet_length_of_present (fs : List (String × String)) (k v : String)
    (h : fs.any (fun p => p.1 == k) = true) :
    (recordSet fs k v).length = fs.length := by
  unfold recordSet
  rw [if_pos h]
  exact List.length_map fs _

theorem recordSet_countP_of_present (fs : List (String × String)) (k v : String)
    (h : fs.any (fun p => p.1 == k) = true) :
    (recordSet fs k v).countP (fun p => p.1 == k)
      = fs.countP (fun p => p.1 == k) := by
  unfold recordSet
  rw [if_pos h]
  exact countP_map_overwrite fs k v

/-! ### Claim theorems -/

/-- C4: the Theme type guard `isTheme` returns `true` exactly on the
strings `dark` and `light`; every other value — other strings and
non-string values alike — yields `false`. -/
theorem isTheme_spec (v : JsVal) :
    isTheme v = true ↔ v = .str "dark" ∨ v = .str "light" :=
  isTheme_true_iff v

/-- C3: whatever the session holds — in particular whatever cookie it
was built from, missing, tampered, or arbitrary-valued — `getTheme`
returns `null`, the string `dark`, or the string `light`, never any
other value, because the read passes through the `isTheme` guard. -/
theorem getTheme_invariant (session : Session) :
    getTheme session = .null ∨ getTheme session = .str "dark"
      ∨ getTheme session = .str "light" := by
  unfold getTheme
  by_cases h : isTheme (sessionGet session "theme") = true
  · rcases (isTheme_true_iff _).1 h with h1 | h1
    · exact Or.inr (Or.inl (by rw [h1]; rfl))
    · exact Or.inr (Or.inr (by rw [h1]; rfl))
  · simp [h]

/-- C1: the claim fails on the code. An absent or malformed body makes
the uncaught `await request.json()` throw a `SyntaxError`, and a body
parsing to JSON `null` makes the guard `!(data || data.theme)` evaluate
`null.theme` and throw a `TypeError` — in neither case does the action
redirect. Only a body parsing to a truthy value whose `theme` fails the
guard redirects without a state change, as the claim describes. -/
theorem setThemeAction_bad_body_throws :
    setThemeAction "/" none [] = .error .syntaxError
  ∧ setThemeAction "/" (some .null) [] = .error .typeError
  ∧ setThemeAction "/" (some (.obj [("theme", .str "blue")]))
      [("theme", .str "dark")] = .ok ⟨"/", none⟩ :=
  ⟨rfl, rfl, rfl⟩

/-- C2: posting `{theme: t}` for a valid theme `t` makes the action
redirect with a `Set-Cookie` committing the updated session, and reading
that session back yields `t`; posting an invalid theme value produces a
plain redirect with no `Set-Cookie`, so the stored session — and hence
its theme — is exactly what it was before the call. -/
theorem setThemeAction_roundtrip (t : String) (v : JsVal) (session : Session)
    (path : String) (ht : t ∈ themes) (hv : isTheme v = false) :
    setThemeAction path (some (.obj [("theme", .str t)])) session
      = .ok ⟨path, some (sessionSet session "theme" (.str t))⟩
  ∧ getTheme (storedAfter session ⟨path, some (sessionSet session "theme" (.str t))⟩)
      = .str t
  ∧ setThemeAction path (some (.obj [("theme", v)])) session = .ok ⟨path, none⟩
  ∧ storedAfter session ⟨path, none⟩ = session := by
  have hth : isTheme (.str t) = true := isTheme_mem t ht
  refine ⟨?_, ?_, ?_, rfl⟩
  · simp [setThemeAction, JsVal.truthy, JsVal.getProp, hth]
  · simp [storedAfter, getTheme, sessionGet, sessionSet, hth]
  · simp [setThemeAction, JsVal.truthy, JsVal.getProp, hv]

/-- Witness for C2 at `t = dark`, the invalid value `3`, the empty
session, and path `/`. -/
theorem setThemeAction_roundtrip_witness :
    "dark" ∈ themes ∧ isTheme (.num 3) = false
  ∧ setThemeAction "/" (some (.obj [("theme", .str "dark")])) []
      = .ok ⟨"/", some (sessionSet [] "theme" (.str "dark"))⟩ :=
  ⟨by simp [themes], rfl,
    (setThemeAction_roundtrip "dark" (.num 3) [] "/" (by simp [themes]) rfl).1⟩

/-- C5 counterexample: on the header `en-US,fr;q=0.8` the code returns
`[en-US, fr]` — splitting on `,` and `;` drops only the `q=0.8` segment
and keeps the bare tag `fr` — so the claimed result `[en-US]` is wrong. -/
theorem withLocale_quality_counterexample :
    withLocale (some "en-US,fr;q=0.8") = ["en-US", "fr"]
  ∧ withLocale (some "en-US,fr;q=0.8") ≠ ["en-US"] :=
  ⟨by decide, by decide⟩

/-- C5 amended: `withLocale` on a request with header `en-US,fr;q=0.8`
returns `[en-US, fr]` (the quality segment is discarded, the language
tag `fr` is kept), and on a request with no such header returns the
default `[en-US]`. -/
theorem withLocale_examples :
    withLocale (some "en-US,fr;q=0.8") = ["en-US", "fr"]
  ∧ withLocale none = ["en-US"] :=
  ⟨by decide, rfl⟩

/-- C10 counterexample: a present `accepted-language` header whose value
is the empty string still yields the `[en-US]` default, because the
source's `!acceptedLanguages` test treats the empty string like an
absent header — so the default is not confined to absent headers. -/
theorem withLocale_empty_header_counterexample :
    withLocale (some "") = ["en-US"] ∧ (some "" : Option String) ≠ none :=
  ⟨rfl, by decide⟩

/-- C10 amended: the filter drops every segment that starts with the
character `q` — the locale tag `qu` included — every present nonempty
header all of whose segments start with `q` yields the empty list (not
the default), a present nonempty header always yields exactly the
filtered segment list (so the default never results from filtering), and
the `[en-US]` default applies whenever the header is absent or the empty
string. -/
theorem withLocale_q_filter :
    (∀ h seg, seg ∈ withLocale (some h) → jsStartsWith seg "q" = false)
  ∧ (∀ h, h ≠ "" → (∀ seg ∈ splitSegs h, jsStartsWith seg "q" = true) →
      withLocale (some h) = [])
  ∧ (∀ h, h ≠ "" → withLocale (some h)
      = (splitSegs h).filter (fun seg => !jsStartsWith seg "q"))
  ∧ (∀ o : Option String, (o = none ∨ o = some "") → withLocale o = ["en-US"])
  ∧ withLocale (some "qu") = [] := by
  refine ⟨?_, ?_, ?_, ?_, by decide⟩
  · intro h seg hm
    by_cases he : h = ""
    · subst he
      have hs : seg = "en-US" := by simpa [withLocale] using hm
      subst hs
      decide
    · simp only [withLocale, if_neg he, List.mem_filter] at hm
      simpa using hm.2
  · intro h he hall
    simp only [withLocale, if_neg he]
    rw [List.filter_eq_nil_iff]
    intro seg hm
    simp [hall seg hm]
  · intro h he
    simp [withLocale, he]
  · intro o ho
    rcases ho with ho | ho <;> subst ho <;> rfl

/-- Witness for C10 at the header `qu`, whose single segment starts
with `q`. -/
theorem withLocale_q_filter_witness :
    ("qu" : String) ≠ ""
  ∧ (∀ seg ∈ splitSegs "qu", jsStartsWith seg "q" = true)
  ∧ withLocale (some "qu") = [] :=
  ⟨by decide, by decide,
    withLocale_q_filter.2.1 "qu" (by decide) (by decide)⟩

/-- C6: with a `null` or empty-string cookie value, `mergeHeaders`
returns its input unchanged — the same address and an untouched heap —
whatever the shape of the container stored at that address
(`Headers` instance, list of pairs, or plain object). -/
theorem mergeHeaders_empty_value (a : Addr) (heap : Heap) :
    mergeHeaders a heap none = (a, heap)
  ∧ mergeHeaders a heap (some "") = (a, heap) :=
  ⟨rfl, by simp [mergeHeaders]⟩

/-- C9: for a non-empty cookie value, `mergeHeaders` returns the very
same reference it was given and updates the heap only at that address;
the `Headers`-instance and list-of-pairs shapes get a `Set-Cookie` entry
appended (existing entries kept as a prefix), while the plain-object
shape has its `Set-Cookie` binding overwritten in place: the lookup
yields the new value, entries under other names are untouched, and when
the key was already present the length and the number of `Set-Cookie`
entries are unchanged. -/
theorem mergeHeaders_nonempty_spec (a : Addr) (heap : Heap) (v : String)
    (hv : v ≠ "") :
    (mergeHeaders a heap (some v)).1 = a
  ∧ (∀ b, b ≠ a → (mergeHeaders a heap (some v)).2 b = heap b)
  ∧ (∀ es, heap a = .headersObj es →
      (mergeHeaders a heap (some v)).2 a = .headersObj (es ++ [("Set-Cookie", v)]))
  ∧ (∀ es, heap a = .pairs es →
      (mergeHeaders a heap (some v)).2 a = .pairs (es ++ [("Set-Cookie", v)]))
  ∧ (∀ fs, heap a = .record fs →
      (mergeHeaders a heap (some v)).2 a = .record (recordSet fs "Set-Cookie" v))
  ∧ (∀ fs, (recordSet fs "Set-Cookie" v).lookup "Set-Cookie" = some v
      ∧ (recordSet fs "Set-Cookie" v).filter (fun p => p.1 != "Set-Cookie")
          = fs.filter (fun p => p.1 != "Set-Cookie")
      ∧ (fs.any (fun p => p.1 == "Set-Cookie") = true →
          (recordSet fs "Set-Cookie" v).length = fs.length
        ∧ (recordSet fs "Set-Cookie" v).countP (fun p => p.1 == "Set-Cookie")
            = fs.countP (fun p => p.1 == "Set-Cookie"))) := by
  have hm : mergeHeaders a heap (some v)
      = (a, fun b => if b = a then mergeContent (heap b) v else heap b) := by
    simp [mergeHeaders, hv]
  refine ⟨by rw [hm], ?_, ?_, ?_, ?_, ?_⟩
  · intro b hb
    rw [hm]
    simp [hb]
  · intro es he
    rw [hm]
    simp [he, mergeContent]
  · intro es he
    rw [hm]
    simp [he, mergeContent]
  · intro fs he
    rw [hm]
    simp [he, mergeContent]
  · intro fs
    exact ⟨recordSet_lookup fs _ v, recordSet_filter_ne fs _ v, fun h =>
      ⟨recordSet_length_of_present fs _ v h, recordSet_countP_of_present fs _ v h⟩⟩

/-- Witness for C9 at address `0`, a heap holding a pair list, and the
value `c=1`. -/
theorem mergeHeaders_nonempty_witness :
    ("c=1" : String) ≠ ""
  ∧ (mergeHeaders 0 (fun _ => .pairs [("X", "y")]) (some "c=1")).1 = 0 :=
  ⟨by decide,
    (mergeHeaders_nonempty_spec 0 (fun _ => .pairs [("X", "y")]) "c=1" (by decide)).1⟩

/-- C7: `getFromEnv` throws its configuration error exactly when the key
is absent from the source or bound to the empty string, and otherwise
returns the stored value; in particular it fails on the empty source and
returns `v` when the source binds `X` to `v`. -/
theorem getFromEnv_spec :
    (∀ key object,
      (getFromEnvThrew (getFromEnv key object) = true
        ↔ (object.lookup key = none ∨ object.lookup key = some ""))
      ∧ ∀ v, object.lookup key = some v → v ≠ "" → getFromEnv key object = .ok v)
  ∧ getFromEnv "X" [] = .error "X should be in environment"
  ∧ getFromEnv "X" [("X", "v")] = .ok "v" := by
  refine ⟨?_, rfl, rfl⟩
  intro key object
  refine ⟨?_, ?_⟩
  · cases ho : object.lookup key with
    | none => simp [getFromEnv, getFromEnvThrew, ho]
    | some value =>
      by_cases hv : value = ""
      · subst hv
        simp [getFromEnv, getFromEnvThrew, ho]
      · simp [getFromEnv, getFromEnvThrew, ho, hv]
  · intro v hvl hvne
    simp [getFromEnv, hvl, hvne]

/-- Witness for C7 at key `X` and the source binding `X` to `v`. -/
theorem getFromEnv_spec_witness :
    ("v" : String) ≠ "" ∧ getFromEnv "X" [("X", "v")] = .ok "v" :=
  ⟨by decide, (getFromEnv_spec.1 "X" [("X", "v")]).2 "v" (by simp) (by decide)⟩

/-- C8: `SSRTheme` emits the inline flash-avoidance script exactly when
the server-supplied theme is `null`, and in every case emits the
`color-scheme` meta tag, whose content is `light dark` exactly when the
current theme is light and `dark light` otherwise (the two contents
being distinct strings). -/
theorem SSRTheme_spec (ssrTheme theme : Option Theme) :
    ((SSRTheme ssrTheme theme).scriptEmitted = true ↔ ssrTheme = none)
  ∧ (SSRTheme ssrTheme theme).metaContent
      = (if theme = some Theme.light then "light dark" else "dark light")
  ∧ ("dark light" : String) ≠ "light dark" := by
  refine ⟨?_, ?_, by decide⟩
  · simp [SSRTheme, Option.isNone_iff_eq_none]
  · cases theme with
    | none => rfl
    | some t => cases t <;> rfl
